import Mathlib

/-
Shallow embedding of the rag-chatbot repository (src/rag_pipeline.py,
src/document_store.py, src/main.py, src/settings.py).

Python strings become Lean `String`, Python lists become `List`,
Python dicts become association lists over `String` keys (insertion
ordered, unique keys, first-match lookup), numpy float vectors become
an abstract embedding type `Emb` (their numeric values never matter to
any claim), and calls to the external services (PyPDF2 extraction,
FastEmbed embedding, Pinecone, Groq) become explicit parameters or
explicit state passing on a `PineconeState`.  Exceptions become
`Except String`.
-/

namespace RagChatbot

/-- Association-list lookup, first match wins: Python `dict[k]` / `k in dict`. -/
def lookupA {α : Type} (l : List (String × α)) (k : String) : Option α :=
  match l with
  | [] => none
  | (k2, v) :: t => if k2 = k then some v else lookupA t k

/-- Association-list insert-or-replace: Python `dict[k] = v`
(replaces in place when the key is present, appends otherwise). -/
def upsertA {α : Type} (l : List (String × α)) (k : String) (v : α) : List (String × α) :=
  match l with
  | [] => [(k, v)]
  | (k2, v2) :: t => if k2 = k then (k, v) :: t else (k2, v2) :: upsertA t k v

/-- Association-list removal of a key: Python `dict.pop(k)`. -/
def eraseA {α : Type} (l : List (String × α)) (k : String) : List (String × α) :=
  l.filter (fun p => p.1 != k)

/-! ## Chunker (src/rag_pipeline.py, `chunk_text`) -/

/-- Helper for `pySplit`: walks the character list accumulating the current
word (reversed); whitespace ends a word, runs of whitespace produce nothing. -/
def wordsAux (cur : List Char) (cs : List Char) : List (List Char) :=
  match cs with
  | [] => if cur = [] then [] else [cur.reverse]
  | c :: rest =>
    if c.isWhitespace then
      if cur = [] then wordsAux [] rest else cur.reverse :: wordsAux [] rest
    else wordsAux (c :: cur) rest

/-- Python `text.split()` (no separator argument): splits on runs of
whitespace and never yields empty tokens. -/
def pySplit (s : String) : List String :=
  (wordsAux [] s.data).map String.mk

/-- Python `" ".join(ws)`. -/
def joinWords (ws : List String) : String := String.intercalate " " ws

/-- The token slices underlying `chunk_text`: the list comprehension index
set `range(0, len(words), chunk_size)` has `(N + c - 1) / c` elements
(ceiling division), and the slice at step `k` is `words[k*c : k*c + c]`. -/
def chunkSlices (ws : List String) (c : Nat) : List (List String) :=
  (List.range ((ws.length + c - 1) / c)).map (fun k => (ws.drop (k * c)).take c)

/-- Model of `RAGPipeline.chunk_text`:
`chunks = [" ".join(words[i:i+chunk_size]) for i in range(0, len(words), chunk_size)]`
where `words = text.split()`.  The Python default `chunk_size=500` is made
explicit at each call site. -/
def chunk_text (text : String) (chunk_size : Nat) : List String :=
  (chunkSlices (pySplit text) chunk_size).map joinWords

/-! ## Vector records and the Pinecone client state -/

/-- Abstract embedding vectors.  The numeric content of an embedding is
produced by the external FastEmbed model and never inspected by the
repository code, so it is modelled as an opaque list of integers. -/
abbrev Emb := List Int

/-- A Pinecone vector record as built by `upload_to_pinecone`:
`{"id": vec_id, "values": emb.tolist(), "metadata": {...}}`.
The metadata dict is an association list so that the set of metadata
field names present on a record is observable. -/
structure VectorRecord where
  id : String
  values : Emb
  metadata : List (String × String)
deriving DecidableEq

/-- The observable state of the Pinecone account: which indexes exist
(`pc.list_indexes()`) and the records stored under each index name. -/
structure PineconeState where
  indexes : List String
  records : List (String × List VectorRecord)
deriving DecidableEq

/-- Records currently stored in the named index (empty for a fresh index). -/
def recordsOf (p : PineconeState) (name : String) : List VectorRecord :=
  (lookupA p.records name).getD []

/-- Model of `pc.create_index(name, dimension=384, metric="cosine", ...)`:
registers a new, empty index under `name`. -/
def create_index (name : String) (p : PineconeState) : PineconeState :=
  ⟨name :: p.indexes, p.records⟩

/-- Model of `index.upsert(vectors=vs)`: appends the records to the named index.
All ids produced by the pipeline are fresh uuid4 strings, so upsert by id
never replaces an existing record here. -/
def pc_upsert (name : String) (vs : List VectorRecord) (p : PineconeState) : PineconeState :=
  ⟨p.indexes, upsertA p.records name (recordsOf p name ++ vs)⟩

/-- Model of `pc.delete_index(name)`: the index and every record it holds are gone. -/
def pc_delete_index (name : String) (p : PineconeState) : PineconeState :=
  ⟨p.indexes.filter (fun n => n != name), eraseA p.records name⟩

/-! ## RAG pipeline (src/rag_pipeline.py, class RAGPipeline) -/

namespace RAGPipeline

/-- Model of `RAGPipeline._init_index`: looks up `pc.list_indexes()` and calls
`create_index` only when `index_name` is not among the existing names. -/
def init_index (index_name : String) (p : PineconeState) : PineconeState :=
  if index_name ∈ p.indexes then p else create_index index_name p

/-- The record-building loop of `RAGPipeline.upload_to_pinecone`: one record
per embedding, a fresh uuid4 id (modelled by `freshId`), the raw vector
values, and a metadata dict holding exactly the field
`{"text": chunks[i]}`.  The trailing `index.upsert(vectors=vectors)` call
is modelled in `process_document` as a `pc_upsert` state update. -/
def upload_to_pinecone (freshId : Nat → String) (chunks : List String)
    (embeddings : List Emb) : List VectorRecord :=
  (List.range embeddings.length).map (fun i =>
    ⟨freshId i, embeddings.getD i [], [("text", chunks.getD i "")]⟩)

/-- Model of `RAGPipeline.process_document`: extract text (external call, its outcome
is the `extract` parameter), chunk it with the default chunk size 500,
embed the chunks in one batch (outcome `embed`), and upsert one record per
chunk into the pipeline index.  `upsertOk` is the outcome of the external
upsert call.  Any failure propagates as the raised exception and leaves
the index state as it was at the point of the raise; on success the chunk
list is returned. -/
def process_document (extract : Except String String)
    (embed : List String → Except String (List Emb))
    (upsertOk : Bool) (freshId : Nat → String)
    (index_name : String) (p : PineconeState) :
    PineconeState × Except String (List String) :=
  match extract with
  | Except.error e => (p, Except.error e)
  | Except.ok text =>
    let chunks := chunk_text text 500
    match embed chunks with
    | Except.error e => (p, Except.error e)
    | Except.ok embs =>
      if upsertOk then
        (pc_upsert index_name (upload_to_pinecone freshId chunks embs) p,
         Except.ok chunks)
      else (p, Except.error "upsert failed")

/-- The generator string of `RAGPipeline._build_prompt`:
`"".join(f"[Context {i+1}]: {c}" for i, c in enumerate(contexts))`. -/
def context_str (contexts : List String) : String :=
  String.join (contexts.enum.map (fun q =>
    "[Context " ++ toString (q.1 + 1) ++ "]: " ++ q.2))

/-- Model of `RAGPipeline._build_prompt`: the literal f-string of the source with the
two holes filled by `context_str contexts` and `question`. -/
def build_prompt (question : String) (contexts : List String) : String :=
  "You are a helpful AI assistant. Answer the question based on the context below. Context: "
    ++ context_str contexts ++ " Question: " ++ question
    ++ " Answer naturally and conversationally. If the info isn\x27t in the documents, just say \"I don\x27t see that information in your documents.\" Keep it friendly and clear!"

/-- The argument record handed to `self.index.query(...)`.  The Pinecone
query API also accepts an optional metadata `filter` keyword, which the
source never passes, so the call it builds always carries `filter = none`.
`τ` is the type of whatever Python value ends up bound to the `top_k`
parameter (the language is dynamically typed and, see `query_document`,
the caller binds a document-id string to it). -/
structure QueryCall (τ : Type) where
  vector : Emb
  top_k : τ
  include_metadata : Bool
  filter : Option String
deriving DecidableEq

/-- The answer/sources dict returned by `RAGPipeline.query`. -/
structure QueryResult where
  answer : String
  sources : List String
deriving DecidableEq

/-- Model of `RAGPipeline.query(self, question, top_k=3)`: embeds the question,
calls `self.index.query(vector=..., top_k=top_k, include_metadata=True)`
(no `filter` argument), reads `m["metadata"]["text"]` off every match,
builds the prompt and asks the generator (`gen`, the Groq call outcome).
Returns both the query call it issued and the result dict.  `search` is
the external similarity search: the ranked match list Pinecone returns
for the issued call. -/
def query {τ : Type} (embed_one : String → Emb) (gen : String → String)
    (search : QueryCall τ → List VectorRecord)
    (question : String) (top_k : τ) : QueryCall τ × QueryResult :=
  let call : QueryCall τ := ⟨embed_one question, top_k, true, none⟩
  let contexts := (search call).map (fun m => (lookupA m.metadata "text").getD "")
  (call, ⟨gen (build_prompt question contexts), contexts⟩)

end RAGPipeline

/-- Model of `main.query_document` (src/main.py, the `/query` endpoint body): calls
`rag.query(req.question, req.doc_id)`, so the request doc_id string is
passed positionally and lands in the `top_k` parameter of
`RAGPipeline.query`. -/
def query_document (embed_one : String → Emb) (gen : String → String)
    (search : RAGPipeline.QueryCall String → List VectorRecord)
    (question doc_id : String) :
    RAGPipeline.QueryCall String × RAGPipeline.QueryResult :=
  RAGPipeline.query embed_one gen search question doc_id

/-! ## Document store (src/document_store.py, class DocumentStore) -/

/-- Value of `settings.index_prefix` (src/settings.py default). -/
def index_prefix : String := "rag-doc-"

/-- Value of `settings.uploads_dir` (src/settings.py default). -/
def uploads_dir : String := "uploads"

namespace DocumentStore

/-- Model of `DocumentStore._make_index_name`: `f"{settings.index_prefix}{doc_id}"`. -/
def make_index_name (doc_id : String) : String :=
  index_prefix ++ doc_id

/-- One value of the registry dict `self.docs`:
`{"filename": ..., "index_name": ..., "chunks": ...}`. -/
structure DocEntry where
  filename : String
  index_name : String
  chunks : Nat
deriving DecidableEq

/-- The durable state owned by the store: the Pinecone account, the saved
raw files under `uploads_dir` (path to byte content), and the registry
`self.docs` (kept identical to its persisted `documents.json` image,
which `_save_docs` rewrites after every mutation). -/
structure StoreState where
  pinecone : PineconeState
  files : List (String × String)
  docs : List (String × DocEntry)
deriving DecidableEq

/-- Model of `self.upload_dir / upload_file.filename`: the save path depends on the
uploaded filename only. -/
def file_path (filename : String) : String :=
  uploads_dir ++ "/" ++ filename

/-- Model of `DocumentStore.add_document`: saves the raw upload at
`file_path filename`, draws a fresh uuid4 `doc_id` (a parameter here),
builds a `RAGPipeline` for index `make_index_name doc_id` (whose
constructor runs `_init_index`), runs `process_document`, and only on its
success writes the registry entry and persists the registry.  A failure
raised inside `process_document` propagates: the saved file and the
created index remain, the registry is untouched. -/
def add_document (doc_id filename content : String)
    (extract : Except String String)
    (embed : List String → Except String (List Emb))
    (upsertOk : Bool) (freshId : Nat → String)
    (s : StoreState) : StoreState × Except String String :=
  let files2 := upsertA s.files (file_path filename) content
  let index_name := make_index_name doc_id
  let p1 := RAGPipeline.init_index index_name s.pinecone
  match RAGPipeline.process_document extract embed upsertOk freshId index_name p1 with
  | (p2, Except.error e) => (⟨p2, files2, s.docs⟩, Except.error e)
  | (p2, Except.ok chunks) =>
      (⟨p2, files2,
        upsertA s.docs doc_id ⟨filename, index_name, chunks.length⟩⟩,
       Except.ok doc_id)

/-- Model of `DocumentStore.delete_document`: unknown ids are a `False` no-op;
otherwise the whole per-document Pinecone index is deleted, the registry
entry is popped and the registry persisted, and `True` is returned.  The
saved raw file is never touched. -/
def delete_document (doc_id : String) (s : StoreState) : StoreState × Bool :=
  match lookupA s.docs doc_id with
  | none => (s, false)
  | some entry =>
      (⟨pc_delete_index entry.index_name s.pinecone, s.files,
        eraseA s.docs doc_id⟩, true)

end DocumentStore

/-! ## Sample states used by concrete witnesses and counterexamples -/

/-- A vector record as the ingest pipeline would store it for the chunk
text "hello world". -/
def sampleRecord : VectorRecord :=
  ⟨"vec-0", [1], [("text", "hello world")]⟩

/-- A store holding one fully ingested document with id "d". -/
def sampleStore : DocumentStore.StoreState :=
  ⟨⟨["rag-doc-d"], [("rag-doc-d", [sampleRecord])]⟩,
   [("uploads/f.pdf", "RAW")],
   [("d", ⟨"f.pdf", "rag-doc-d", 1⟩)]⟩

/-- An empty store: no indexes, no files, no registry entries. -/
def emptyStore : DocumentStore.StoreState := ⟨⟨[], []⟩, [], []⟩

/-- An embedding oracle mapping each text to a one-entry vector, standing
in for the FastEmbed batch call on concrete inputs. -/
def sampleEmbed (texts : List String) : Except String (List Emb) :=
  Except.ok (texts.map (fun _ => [1]))

/-! ## Association-list lemmas -/

theorem lookupA_upsertA_self {α : Type} (l : List (String × α)) (k : String) (v : α) :
    lookupA (upsertA l k v) k = some v := by
  induction l with
  | nil => simp [upsertA, lookupA]
  | cons h2 t ih =>
    by_cases hk : h2.1 = k
    · simp [upsertA, hk, lookupA]
    · simp [upsertA, hk, lookupA, ih]

theorem lookupA_upsertA_ne {α : Type} (l : List (String × α)) (k k2 : String) (v : α)
    (h : k ≠ k2) : lookupA (upsertA l k v) k2 = lookupA l k2 := by
  induction l with
  | nil => simp [upsertA, lookupA, h]
  | cons h2 t ih =>
    by_cases hk : h2.1 = k
    · simp [upsertA, hk, lookupA, h]
    · simp [upsertA, hk, lookupA, ih]

theorem lookupA_eraseA_self {α : Type} (l : List (String × α)) (k : String) :
    lookupA (eraseA l k) k = none := by
  induction l with
  | nil => simp [eraseA, lookupA]
  | cons h2 t ih =>
    by_cases hk : h2.1 = k
    · simpa [eraseA, hk] using ih
    · simp only [eraseA, List.filter_cons] at ih ⊢
      simp [hk, lookupA, ih]

/-! ## Chunker lemmas -/

theorem chunkSlices_length (ws : List String) (c : Nat) :
    (chunkSlices ws c).length = (ws.length + c - 1) / c := by
  unfold chunkSlices
  rw [List.length_map, List.length_range]

theorem chunkSlices_nil (c : Nat) : chunkSlices [] c = [] := by
  unfold chunkSlices
  cases c with
  | zero => rfl
  | succ m =>
    rw [show (List.length ([] : List String) + (m + 1) - 1) / (m + 1) = 0 from
      Nat.div_eq_of_lt (by simp)]
    rfl

/-- The step of ceiling division that peels one chunk off the front. -/
theorem ceil_div_step (n c : Nat) (hn : 0 < n) (hc : 0 < c) :
    (n + c - 1) / c = ((n - c) + c - 1) / c + 1 := by
  rw [show n + c - 1 = (n - 1) + c by omega, Nat.add_div_right _ hc]
  rcases Nat.lt_or_ge n c with h | h
  · rw [show n - c = 0 by omega]
    rw [Nat.div_eq_of_lt (by omega), Nat.div_eq_of_lt (by omega)]
  · rw [show (n - c) + c - 1 = n - 1 by omega]

theorem chunkSlices_cons (ws : List String) (c : Nat) (hws : ws ≠ []) (hc : 0 < c) :
    chunkSlices ws c = ws.take c :: chunkSlices (ws.drop c) c := by
  unfold chunkSlices
  have hn : 0 < ws.length := List.length_pos.mpr hws
  rw [List.length_drop, ceil_div_step ws.length c hn hc, List.range_succ_eq_map,
    List.map_cons, List.map_map]
  congr 1
  · simp
  · apply List.map_congr_left
    intro k hk
    show (ws.drop (Nat.succ k * c)).take c = ((ws.drop c).drop (k * c)).take c
    rw [List.drop_drop]
    rw [show Nat.succ k * c = c + k * c by rw [Nat.succ_mul]; omega]

theorem chunkSlices_flatten (c : Nat) (hc : 0 < c) :
    ∀ (n : Nat) (ws : List String), ws.length = n → (chunkSlices ws c).flatten = ws := by
  intro n
  induction n using Nat.strong_induction_on with
  | _ n ih =>
    intro ws hn
    cases ws with
    | nil => rw [chunkSlices_nil]; rfl
    | cons a t =>
      rw [chunkSlices_cons (a :: t) c (by simp) hc, List.flatten_cons]
      have hpos : 0 < n := by
        rw [← hn]; exact List.length_pos.mpr (by simp)
      have hlen : ((a :: t).drop c).length = n - c := by
        rw [List.length_drop, hn]
      rw [ih (n - c) (by omega) ((a :: t).drop c) hlen]
      exact List.take_append_drop c (a :: t)

theorem chunkSlices_le (ws : List String) (c : Nat) :
    ∀ l ∈ chunkSlices ws c, l.length ≤ c := by
  intro l hl
  unfold chunkSlices at hl
  rcases List.mem_map.mp hl with ⟨k, _, rfl⟩
  rw [List.length_take]
  exact min_le_left _ _

/-! ## Pipeline and store lemmas -/

theorem mem_init_index (nm : String) (p : PineconeState) :
    nm ∈ (RAGPipeline.init_index nm p).indexes := by
  by_cases h : nm ∈ p.indexes
  · simp [RAGPipeline.init_index, h]
  · simp [RAGPipeline.init_index, h, create_index]

theorem process_document_indexes (ex : Except String String)
    (em : List String → Except String (List Emb)) (u : Bool) (fr : Nat → String)
    (nm : String) (p : PineconeState) :
    ((RAGPipeline.process_document ex em u fr nm p).1).indexes = p.indexes := by
  unfold RAGPipeline.process_document
  cases ex with
  | error e => rfl
  | ok text =>
    cases hem : em (chunk_text text 500) with
    | error e => simp [hem]
    | ok embs => cases u <;> simp [hem, pc_upsert]

/-- On a successful `add_document` run the final state is fully determined:
the pipeline-updated Pinecone state, the saved raw file, and the registry
extended with a complete entry (for the chunk count produced). -/
theorem add_document_ok_state (d fn c : String) (ex : Except String String)
    (em : List String → Except String (List Emb)) (u : Bool) (fr : Nat → String)
    (s : DocumentStore.StoreState)
    (hok : ∃ x, (DocumentStore.add_document d fn c ex em u fr s).2 = Except.ok x) :
    ∃ k : Nat, (DocumentStore.add_document d fn c ex em u fr s).1 =
      ⟨(RAGPipeline.process_document ex em u fr (DocumentStore.make_index_name d)
          (RAGPipeline.init_index (DocumentStore.make_index_name d) s.pinecone)).1,
        upsertA s.files (DocumentStore.file_path fn) c,
        upsertA s.docs d ⟨fn, DocumentStore.make_index_name d, k⟩⟩ := by
  rcases hok with ⟨x, hx⟩
  rcases hp : RAGPipeline.process_document ex em u fr (DocumentStore.make_index_name d)
      (RAGPipeline.init_index (DocumentStore.make_index_name d) s.pinecone) with ⟨p2, res⟩
  cases res with
  | error e => simp [DocumentStore.add_document, hp] at hx
  | ok chunks =>
    refine ⟨chunks.length, ?_⟩
    simp [DocumentStore.add_document, hp]

/-! ## Claims -/

/-- C1: the spec claims `query(question, doc_id=A, top_k=3)` issues a
similarity search filtered to `doc_id` A.  In the code, the `/query`
endpoint calls `rag.query(req.question, req.doc_id)`, whose second
positional parameter is `top_k`: the document id string is bound to
`top_k` and the Pinecone call is built with no metadata filter at all,
contradicting the intent stated by the adjacent source comment
("Pass doc_id to query for filtering"). -/
theorem query_document_binds_doc_id_to_top_k_and_passes_no_filter
    (embed_one : String → Emb) (gen : String → String)
    (search : RAGPipeline.QueryCall String → List VectorRecord)
    (question doc_id : String) :
    (query_document embed_one gen search question doc_id).1.filter = none
    ∧ (query_document embed_one gen search question doc_id).1.top_k = doc_id
    ∧ (query_document embed_one gen search question doc_id).1.include_metadata = true :=
  ⟨rfl, rfl, rfl⟩

/-- C2 counterexample: with zero similarity matches, `query` does not
return the fixed fallback dict; it returns whatever the generator says
for a prompt with an empty context section, so with a generator that
answers "It is about gadgets." the result differs from the claimed
fallback. -/
theorem query_empty_matches_no_fixed_fallback :
    (query_document (fun _ => [1]) (fun _ => "It is about gadgets.") (fun _ => [])
        "What is this about?" "X").2 ≠
      ⟨"No relevant content found in this document.", []⟩ := by
  decide

/-- C2 amended: when the similarity search returns zero matches, `query`
still builds the prompt from an empty context list and calls the
generator, returning its completion with an empty source list; no fixed
fallback string exists in the code and no error is raised. -/
theorem query_empty_matches_returns_generator_answer {τ : Type}
    (embed_one : String → Emb) (gen : String → String)
    (search : RAGPipeline.QueryCall τ → List VectorRecord)
    (question : String) (t : τ)
    (h : search ⟨embed_one question, t, true, none⟩ = []) :
    (RAGPipeline.query embed_one gen search question t).2 =
      ⟨gen (RAGPipeline.build_prompt question []), []⟩ := by
  unfold RAGPipeline.query
  simp [h]

/-- Witness for the C2 amended theorem at a concrete zero-match search. -/
theorem query_empty_matches_returns_generator_answer_witness :
    ((fun _ => ([] : List VectorRecord))
        (⟨(fun _ => ([1] : Emb)) "What is this about?", "X", true, none⟩ :
          RAGPipeline.QueryCall String) = [])
    ∧ (RAGPipeline.query (fun _ => ([1] : Emb)) (fun p => p) (fun _ => [])
          "What is this about?" "X").2 =
        ⟨(fun p => p) (RAGPipeline.build_prompt "What is this about?" []), []⟩ :=
  ⟨rfl, query_empty_matches_returns_generator_answer (fun _ => [1]) (fun p => p)
    (fun _ => []) "What is this about?" "X" rfl⟩

/-- C3: if extraction, embedding or index upsert fails during
`add_document`, the raised error propagates before the registry write:
the registry of the resulting state is exactly the registry of the
initial state, with no partial entry for the new doc id. -/
theorem add_document_failure_leaves_registry_unchanged
    (d fn c : String) (ex : Except String String)
    (em : List String → Except String (List Emb)) (u : Bool) (fr : Nat → String)
    (s : DocumentStore.StoreState) (e : String)
    (h : (DocumentStore.add_document d fn c ex em u fr s).2 = Except.error e) :
    ((DocumentStore.add_document d fn c ex em u fr s).1).docs = s.docs := by
  rcases hp : RAGPipeline.process_document ex em u fr (DocumentStore.make_index_name d)
      (RAGPipeline.init_index (DocumentStore.make_index_name d) s.pinecone) with ⟨p2, res⟩
  cases res with
  | error e2 => simp [DocumentStore.add_document, hp]
  | ok chunks => simp [DocumentStore.add_document, hp] at h

/-- Witness for C3: a concrete ingest whose extraction fails. -/
theorem add_document_failure_leaves_registry_unchanged_witness :
    (DocumentStore.add_document "d" "f.pdf" "RAW" (Except.error "boom") sampleEmbed true
        (fun _ => "vec-0") sampleStore).2 = Except.error "boom"
    ∧ ((DocumentStore.add_document "d" "f.pdf" "RAW" (Except.error "boom") sampleEmbed true
        (fun _ => "vec-0") sampleStore).1).docs = sampleStore.docs :=
  ⟨rfl, add_document_failure_leaves_registry_unchanged "d" "f.pdf" "RAW"
    (Except.error "boom") sampleEmbed true (fun _ => "vec-0") sampleStore "boom" rfl⟩

/-- C4: for a text with N whitespace-delimited tokens and chunk size C
greater than 0, `chunk_text` produces exactly the ceiling of N over C
chunks (stated both as `(N + C - 1) / C` and order-theoretically), every
chunk is the space-join of a token slice of at most C tokens, and the
slices concatenate back to the original token sequence in order. -/
theorem chunk_text_count_bound_concat (text : String) (C : Nat) (hC : 0 < C) :
    (chunk_text text C).length = ((pySplit text).length + C - 1) / C
    ∧ (pySplit text).length ≤ C * (chunk_text text C).length
    ∧ C * (chunk_text text C).length < (pySplit text).length + C
    ∧ (∀ l ∈ chunkSlices (pySplit text) C, l.length ≤ C)
    ∧ (chunkSlices (pySplit text) C).flatten = pySplit text
    ∧ chunk_text text C = (chunkSlices (pySplit text) C).map joinWords := by
  have hlen : (chunk_text text C).length = ((pySplit text).length + C - 1) / C := by
    unfold chunk_text
    rw [List.length_map, chunkSlices_length]
  have h1 := Nat.div_add_mod ((pySplit text).length + C - 1) C
  have h2 := Nat.mod_lt ((pySplit text).length + C - 1) hC
  refine ⟨hlen, ?_, ?_, chunkSlices_le _ _, chunkSlices_flatten C hC _ _ rfl, rfl⟩
  · rw [hlen]
    generalize hq : C * (((pySplit text).length + C - 1) / C) = m at h1 ⊢
    generalize hr : ((pySplit text).length + C - 1) % C = r at h1 h2
    omega
  · rw [hlen]
    generalize hq : C * (((pySplit text).length + C - 1) / C) = m at h1 ⊢
    generalize hr : ((pySplit text).length + C - 1) % C = r at h1 h2
    omega

/-- Witness for C4 on a five-token text with chunk size 2. -/
theorem chunk_text_count_bound_concat_witness :
    0 < 2
    ∧ ((chunk_text "a b c d e" 2).length = ((pySplit "a b c d e").length + 2 - 1) / 2
      ∧ (pySplit "a b c d e").length ≤ 2 * (chunk_text "a b c d e" 2).length
      ∧ 2 * (chunk_text "a b c d e" 2).length < (pySplit "a b c d e").length + 2
      ∧ (∀ l ∈ chunkSlices (pySplit "a b c d e") 2, l.length ≤ 2)
      ∧ (chunkSlices (pySplit "a b c d e") 2).flatten = pySplit "a b c d e"
      ∧ chunk_text "a b c d e" 2 = (chunkSlices (pySplit "a b c d e") 2).map joinWords) :=
  ⟨by decide, chunk_text_count_bound_concat "a b c d e" 2 (by decide)⟩

/-- C5 counterexample: deleting the registered document "d" from
`sampleStore` returns true, yet the stored raw file is still present
afterwards, refuting the claim that `delete_document` deletes the stored
raw file. -/
theorem delete_document_leaves_raw_file :
    (DocumentStore.delete_document "d" sampleStore).2 = true
    ∧ lookupA ((DocumentStore.delete_document "d" sampleStore).1).files
        "uploads/f.pdf" = some "RAW" := by
  decide

/-- C5 amended: for a registered doc id, `delete_document` deletes the
whole per-document Pinecone index (hence every vector record of the
document), removes and persists the registry entry, and returns true,
but it never deletes the stored raw file; for an unknown doc id it is a
no-op returning false. -/
theorem delete_document_behavior (d : String) (s : DocumentStore.StoreState) :
    ((DocumentStore.delete_document d s).1).files = s.files
    ∧ (lookupA s.docs d = none → DocumentStore.delete_document d s = (s, false))
    ∧ (∀ entry, lookupA s.docs d = some entry →
        (DocumentStore.delete_document d s).2 = true
        ∧ ((DocumentStore.delete_document d s).1).docs = eraseA s.docs d
        ∧ lookupA ((DocumentStore.delete_document d s).1).docs d = none
        ∧ recordsOf ((DocumentStore.delete_document d s).1).pinecone
            entry.index_name = []
        ∧ entry.index_name ∉
            ((DocumentStore.delete_document d s).1).pinecone.indexes) := by
  cases hl : lookupA s.docs d with
  | none =>
    refine ⟨?_, fun _ => ?_, fun entry he => ?_⟩
    · simp [DocumentStore.delete_document, hl]
    · simp [DocumentStore.delete_document, hl]
    · cases he
  | some entry0 =>
    refine ⟨?_, fun hn => ?_, fun entry he => ?_⟩
    · simp [DocumentStore.delete_document, hl]
    · cases hn
    · injection he with he2
      subst he2
      refine ⟨?_, ?_, ?_, ?_, ?_⟩
      · simp [DocumentStore.delete_document, hl]
      · simp [DocumentStore.delete_document, hl]
      · simp [DocumentStore.delete_document, hl, lookupA_eraseA_self]
      · simp [DocumentStore.delete_document, hl, recordsOf, pc_delete_index,
          lookupA_eraseA_self]
      · simp [DocumentStore.delete_document, hl, pc_delete_index, List.mem_filter]

/-- Witness for C5 amended at the concrete store holding document "d". -/
theorem delete_document_behavior_witness :
    lookupA sampleStore.docs "d" =
      some (⟨"f.pdf", "rag-doc-d", 1⟩ : DocumentStore.DocEntry)
    ∧ ((DocumentStore.delete_document "d" sampleStore).2 = true
      ∧ ((DocumentStore.delete_document "d" sampleStore).1).docs =
          eraseA sampleStore.docs "d"
      ∧ lookupA ((DocumentStore.delete_document "d" sampleStore).1).docs "d" = none
      ∧ recordsOf ((DocumentStore.delete_document "d" sampleStore).1).pinecone
          (⟨"f.pdf", "rag-doc-d", 1⟩ : DocumentStore.DocEntry).index_name = []
      ∧ (⟨"f.pdf", "rag-doc-d", 1⟩ : DocumentStore.DocEntry).index_name ∉
          ((DocumentStore.delete_document "d" sampleStore).1).pinecone.indexes) :=
  ⟨by decide, (delete_document_behavior "d" sampleStore).2.2
    ⟨"f.pdf", "rag-doc-d", 1⟩ (by decide)⟩

/-- C6 counterexample: a record built by `upload_to_pinecone` for the
chunk "hello world" carries a metadata dict whose only field is `text`;
the claimed `doc_id` and `chunk_index` fields are absent. -/
theorem upload_metadata_missing_doc_id_and_chunk_index :
    ((RAGPipeline.upload_to_pinecone (fun _ => "vec-0") ["hello world"] [[1]]).map
        (fun r => (lookupA r.metadata "doc_id", lookupA r.metadata "chunk_index",
          r.metadata.map Prod.fst)))
      = [(none, none, ["text"])] := by
  decide

/-- C6 amended: every record upserted during ingest carries the metadata
dict `{"text": chunk}` and nothing else — one field, no doc id and no
chunk index — and its id is the fresh uuid drawn for its position. -/
theorem upload_metadata_text_only (freshId : Nat → String) (chunks : List String)
    (embeddings : List Emb) :
    (RAGPipeline.upload_to_pinecone freshId chunks embeddings).map
        (fun r => r.metadata)
      = (List.range embeddings.length).map (fun i => [("text", chunks.getD i "")])
    ∧ (RAGPipeline.upload_to_pinecone freshId chunks embeddings).map (fun r => r.id)
      = (List.range embeddings.length).map freshId := by
  unfold RAGPipeline.upload_to_pinecone
  rw [List.map_map, List.map_map]
  exact ⟨rfl, rfl⟩

/-- C7 counterexample: ingesting a document whose extracted text is empty
succeeds and registers the document with a chunk count of 0, instead of
failing as the claim requires. -/
theorem empty_text_ingest_registers_silently :
    (DocumentStore.add_document "d" "f.pdf" "RAW" (Except.ok "") sampleEmbed true
        (fun _ => "vec-0") emptyStore).2 = Except.ok "d"
    ∧ lookupA ((DocumentStore.add_document "d" "f.pdf" "RAW" (Except.ok "") sampleEmbed
        true (fun _ => "vec-0") emptyStore).1).docs "d" =
        some ⟨"f.pdf", "rag-doc-d", 0⟩ :=
  ⟨rfl, rfl⟩

/-- C7 amended: empty extracted text yields zero chunks, and
`add_document` silently succeeds, registering the document with
`chunks = 0` (the open question in the spec notwithstanding, this
variant does not treat the empty document as an ingest failure). -/
theorem empty_text_ingest_zero_chunk_success
    (d fn c : String)
    (embed : List String → Except String (List Emb)) (fr : Nat → String)
    (s : DocumentStore.StoreState)
    (hembed : embed [] = Except.ok []) :
    chunk_text "" 500 = []
    ∧ (DocumentStore.add_document d fn c (Except.ok "") embed true fr s).2 =
        Except.ok d
    ∧ lookupA ((DocumentStore.add_document d fn c (Except.ok "") embed true fr s).1).docs
        d = some ⟨fn, DocumentStore.make_index_name d, 0⟩ := by
  have h1 : ∀ (nm : String) (p : PineconeState),
      RAGPipeline.process_document (Except.ok "") embed true fr nm p =
        (pc_upsert nm (RAGPipeline.upload_to_pinecone fr [] []) p, Except.ok []) := by
    intro nm p
    unfold RAGPipeline.process_document
    simp [show chunk_text "" 500 = [] from rfl, hembed]
  refine ⟨rfl, ?_, ?_⟩
  · simp [DocumentStore.add_document, h1]
  · simp [DocumentStore.add_document, h1, lookupA_upsertA_self]

/-- Witness for C7 amended on the empty store. -/
theorem empty_text_ingest_zero_chunk_success_witness :
    sampleEmbed [] = Except.ok []
    ∧ (chunk_text "" 500 = []
      ∧ (DocumentStore.add_document "d" "f.pdf" "RAW" (Except.ok "") sampleEmbed true
          (fun _ => "vec-0") emptyStore).2 = Except.ok "d"
      ∧ lookupA ((DocumentStore.add_document "d" "f.pdf" "RAW" (Except.ok "") sampleEmbed
          true (fun _ => "vec-0") emptyStore).1).docs "d" =
          some ⟨"f.pdf", DocumentStore.make_index_name "d", 0⟩) :=
  ⟨rfl, empty_text_ingest_zero_chunk_success "d" "f.pdf" "RAW" sampleEmbed
    (fun _ => "vec-0") emptyStore rfl⟩

/-- C8: `_init_index` creates the index only when its name is absent from
the account; running it twice leaves the same state as running it once,
and when the index already exists it is a no-op. -/
theorem init_index_lazy_idempotent (nm : String) (p : PineconeState) :
    RAGPipeline.init_index nm (RAGPipeline.init_index nm p) =
      RAGPipeline.init_index nm p
    ∧ (nm ∈ p.indexes → RAGPipeline.init_index nm p = p) := by
  constructor
  · by_cases h : nm ∈ p.indexes
    · simp [RAGPipeline.init_index, h]
    · have h2 : nm ∈ (create_index nm p).indexes := by simp [create_index]
      simp [RAGPipeline.init_index, h, h2]
  · intro h
    simp [RAGPipeline.init_index, h]

/-- Witness for C8 at a state where the index already exists. -/
theorem init_index_lazy_idempotent_witness :
    "rag-doc-d" ∈ sampleStore.pinecone.indexes
    ∧ RAGPipeline.init_index "rag-doc-d" sampleStore.pinecone =
        sampleStore.pinecone :=
  ⟨by decide, (init_index_lazy_idempotent "rag-doc-d" sampleStore.pinecone).2
    (by decide)⟩

/-- C9: every successful `add_document` registers an entry whose index
name is `index_prefix ++ doc_id` and creates that index on the account;
the index-name map is injective on doc ids, so two documents with
distinct doc ids live in distinct indexes and no index is shared. -/
theorem per_document_index_distinct (a b d fn c : String)
    (ex : Except String String) (em : List String → Except String (List Emb))
    (u : Bool) (fr : Nat → String) (s : DocumentStore.StoreState)
    (hab : a ≠ b)
    (hok : (DocumentStore.add_document d fn c ex em u fr s).2 = Except.ok d) :
    DocumentStore.make_index_name a ≠ DocumentStore.make_index_name b
    ∧ DocumentStore.make_index_name d = index_prefix ++ d
    ∧ DocumentStore.make_index_name d ∈
        ((DocumentStore.add_document d fn c ex em u fr s).1).pinecone.indexes
    ∧ (∃ k, lookupA ((DocumentStore.add_document d fn c ex em u fr s).1).docs d =
        some ⟨fn, DocumentStore.make_index_name d, k⟩) := by
  rcases add_document_ok_state d fn c ex em u fr s ⟨d, hok⟩ with ⟨k, hst⟩
  refine ⟨?_, rfl, ?_, ?_⟩
  · intro h
    apply hab
    have h2 := congrArg String.data h
    rw [DocumentStore.make_index_name, DocumentStore.make_index_name,
      String.data_append, String.data_append] at h2
    exact String.ext (List.append_cancel_left h2)
  · rw [hst]
    show DocumentStore.make_index_name d ∈
      ((RAGPipeline.process_document ex em u fr (DocumentStore.make_index_name d)
          (RAGPipeline.init_index (DocumentStore.make_index_name d) s.pinecone)).1).indexes
    rw [process_document_indexes]
    exact mem_init_index _ _
  · rw [hst]
    exact ⟨k, lookupA_upsertA_self _ _ _⟩

/-- Witness for C9: a concrete successful upload of "hello world". -/
theorem per_document_index_distinct_witness :
    "a" ≠ "b"
    ∧ (DocumentStore.add_document "d" "f.pdf" "RAW" (Except.ok "hello world")
        sampleEmbed true (fun _ => "vec-0") emptyStore).2 = Except.ok "d"
    ∧ (DocumentStore.make_index_name "a" ≠ DocumentStore.make_index_name "b"
      ∧ DocumentStore.make_index_name "d" = index_prefix ++ "d"
      ∧ DocumentStore.make_index_name "d" ∈
          ((DocumentStore.add_document "d" "f.pdf" "RAW" (Except.ok "hello world")
              sampleEmbed true (fun _ => "vec-0") emptyStore).1).pinecone.indexes
      ∧ (∃ k, lookupA ((DocumentStore.add_document "d" "f.pdf" "RAW"
            (Except.ok "hello world") sampleEmbed true (fun _ => "vec-0")
            emptyStore).1).docs "d" =
          some ⟨"f.pdf", DocumentStore.make_index_name "d", k⟩)) :=
  ⟨by decide, rfl, per_document_index_distinct "a" "b" "d" "f.pdf" "RAW"
    (Except.ok "hello world") sampleEmbed true (fun _ => "vec-0") emptyStore
    (by decide) rfl⟩

/-- C10: the raw upload is saved at a path depending only on the uploaded
filename, so when two uploads with equal filenames both succeed, the
second saved file overwrites the first while the registry keeps both
entries under their distinct doc ids. -/
theorem same_filename_overwrites_raw_file
    (d1 d2 fn c1 c2 : String)
    (ex1 ex2 : Except String String)
    (em1 em2 : List String → Except String (List Emb))
    (u1 u2 : Bool) (fr1 fr2 : Nat → String)
    (s : DocumentStore.StoreState)
    (hne : d1 ≠ d2)
    (h1 : ∃ x, (DocumentStore.add_document d1 fn c1 ex1 em1 u1 fr1 s).2 = Except.ok x)
    (h2 : ∃ x, (DocumentStore.add_document d2 fn c2 ex2 em2 u2 fr2
        (DocumentStore.add_document d1 fn c1 ex1 em1 u1 fr1 s).1).2 = Except.ok x) :
    lookupA ((DocumentStore.add_document d2 fn c2 ex2 em2 u2 fr2
        (DocumentStore.add_document d1 fn c1 ex1 em1 u1 fr1 s).1).1).files
      (DocumentStore.file_path fn) = some c2
    ∧ (∃ k, lookupA ((DocumentStore.add_document d2 fn c2 ex2 em2 u2 fr2
          (DocumentStore.add_document d1 fn c1 ex1 em1 u1 fr1 s).1).1).docs d2 =
        some ⟨fn, DocumentStore.make_index_name d2, k⟩)
    ∧ (∃ k, lookupA ((DocumentStore.add_document d2 fn c2 ex2 em2 u2 fr2
          (DocumentStore.add_document d1 fn c1 ex1 em1 u1 fr1 s).1).1).docs d1 =
        some ⟨fn, DocumentStore.make_index_name d1, k⟩) := by
  rcases add_document_ok_state d1 fn c1 ex1 em1 u1 fr1 s h1 with ⟨k1, hs1⟩
  rcases add_document_ok_state d2 fn c2 ex2 em2 u2 fr2
    (DocumentStore.add_document d1 fn c1 ex1 em1 u1 fr1 s).1 h2 with ⟨k2, hs2⟩
  rw [hs2]
  refine ⟨lookupA_upsertA_self _ _ _, ⟨k2, lookupA_upsertA_self _ _ _⟩, ⟨k1, ?_⟩⟩
  show lookupA (upsertA ((DocumentStore.add_document d1 fn c1 ex1 em1 u1 fr1 s).1).docs
      d2 ⟨fn, DocumentStore.make_index_name d2, k2⟩) d1 =
    some ⟨fn, DocumentStore.make_index_name d1, k1⟩
  rw [lookupA_upsertA_ne _ _ _ _ (fun h => hne h.symm), hs1]
  exact lookupA_upsertA_self _ _ _

/-- Witness for C10: two concrete successful uploads of the same filename
with different contents and distinct fresh doc ids. -/
theorem same_filename_overwrites_raw_file_witness :
    "d1" ≠ "d2"
    ∧ (∃ x, (DocumentStore.add_document "d1" "f.pdf" "RAW1"
        (Except.ok "hello world") sampleEmbed true (fun _ => "vec-0")
        emptyStore).2 = Except.ok x)
    ∧ (∃ x, (DocumentStore.add_document "d2" "f.pdf" "RAW2"
        (Except.ok "bye world") sampleEmbed true (fun _ => "vec-1")
        (DocumentStore.add_document "d1" "f.pdf" "RAW1" (Except.ok "hello world")
          sampleEmbed true (fun _ => "vec-0") emptyStore).1).2 = Except.ok x)
    ∧ (lookupA ((DocumentStore.add_document "d2" "f.pdf" "RAW2"
          (Except.ok "bye world") sampleEmbed true (fun _ => "vec-1")
          (DocumentStore.add_document "d1" "f.pdf" "RAW1" (Except.ok "hello world")
            sampleEmbed true (fun _ => "vec-0") emptyStore).1).1).files
        (DocumentStore.file_path "f.pdf") = some "RAW2"
      ∧ (∃ k, lookupA ((DocumentStore.add_document "d2" "f.pdf" "RAW2"
            (Except.ok "bye world") sampleEmbed true (fun _ => "vec-1")
            (DocumentStore.add_document "d1" "f.pdf" "RAW1" (Except.ok "hello world")
              sampleEmbed true (fun _ => "vec-0") emptyStore).1).1).docs "d2" =
          some ⟨"f.pdf", DocumentStore.make_index_name "d2", k⟩)
      ∧ (∃ k, lookupA ((DocumentStore.add_document "d2" "f.pdf" "RAW2"
            (Except.ok "bye world") sampleEmbed true (fun _ => "vec-1")
            (DocumentStore.add_document "d1" "f.pdf" "RAW1" (Except.ok "hello world")
              sampleEmbed true (fun _ => "vec-0") emptyStore).1).1).docs "d1" =
          some ⟨"f.pdf", DocumentStore.make_index_name "d1", k⟩)) :=
  ⟨by decide, ⟨"d1", rfl⟩, ⟨"d2", rfl⟩,
    same_filename_overwrites_raw_file "d1" "d2" "f.pdf" "RAW1" "RAW2"
      (Except.ok "hello world") (Except.ok "bye world") sampleEmbed sampleEmbed
      true true (fun _ => "vec-0") (fun _ => "vec-1") emptyStore
      (by decide) ⟨"d1", rfl⟩ ⟨"d2", rfl⟩⟩

end RagChatbot
